import Mathlib

/-!
Verification development for the PRSedm scoring engine.

The repository snapshot carries the package README, packaging recipes and
caller notebooks; the Python scoring engine itself is not in the snapshot,
so the engine components below are modelled from the specification
(variant model, imputation, HLA tie-break, aggregation/normalization,
batch scheduling, error propagation), while CLI defaults and the batch
size come from the README and notebooks, which are in the snapshot.
All real-valued quantities are modelled exactly over ℚ.
-/

namespace PRSedm

/-- Modelled from the spec: the error taxonomy of the engine (§7); the
engine source is absent from the snapshot. -/
inductive ScoreError where
  | UnknownScoreFlag
  | UnsupportedBuild
  | GenotypeSourceError
  | NoReferenceFrequency
  | MissingVariantNotImputed
  | HLAUnresolved
  | DegenerateBounds
deriving DecidableEq, Repr

/-- Modelled from the spec: a VariantSpec carries contig, position, build,
alleles and the effect weight (§3). -/
structure VariantSpec where
  contig : String
  position : Nat
  build : String
  refAllele : String
  altAllele : String
  weight : ℚ
deriving DecidableEq, Repr

/-- Modelled from the spec: mean-effect imputation under Hardy-Weinberg
equilibrium substitutes the expected allele count 2p for a missing variant
with reference allele frequency p (§4.3, README "Missing variant mean
effect imputation"). -/
def impute (p : ℚ) : ℚ := 2 * p

/-- Modelled from the spec: resolving one (sample, variant) call — the
observed value if present, otherwise the imputed expectation when
imputation is enabled and a reference frequency exists (§4.2-4.3). -/
def resolveCall (imputeEnabled : Bool) (observed : Option ℚ)
    (refFreq : Option ℚ) : Except ScoreError ℚ :=
  match observed with
  | some g => .ok g
  | none =>
    if imputeEnabled then
      match refFreq with
      | some p => .ok (impute p)
      | none => .error .NoReferenceFrequency
    else .error .MissingVariantNotImputed

/-- Modelled from the spec: the additive score over a variant list, each
contribution weight × expected allele count, failing on the first
unresolvable variant (§4.3, §4.5). -/
def scoreVariants (imputeEnabled : Bool) (geno : VariantSpec → Option ℚ)
    (freq : VariantSpec → Option ℚ) : List VariantSpec → Except ScoreError ℚ
  | [] => .ok 0
  | v :: vs =>
    match resolveCall imputeEnabled (geno v) (freq v) with
    | .error err => .error err
    | .ok e =>
      match scoreVariants imputeEnabled geno freq vs with
      | .error err => .error err
      | .ok s => .ok (v.weight * e + s)

/-- Modelled from the spec: raw score = Σ (additive variant weight ×
expected allele count) + HLA interaction term (§4.5). -/
def rawScore (contribs : List (VariantSpec × ℚ)) (hlaTerm : ℚ) : ℚ :=
  (contribs.map (fun c => c.1.weight * c.2)).sum + hlaTerm

/-- Claim C1: for every variant missing from the genotype source with a
reference-panel frequency p, the substituted value is the expected allele
count 2p, and a run where those values are instead pre-supplied as observed
genotypes equal to 2p yields the same raw score as the imputed run. -/
theorem C1_imputation_consistency (geno geno' freq : VariantSpec → Option ℚ)
    (variants : List VariantSpec)
    (hobs : ∀ v g, geno v = some g → geno' v = some g)
    (hmiss : ∀ v, geno v = none → ∃ p, freq v = some p ∧ geno' v = some (2 * p)) :
    (∀ p, resolveCall true none (some p) = .ok (2 * p)) ∧
    scoreVariants true geno' freq variants = scoreVariants true geno freq variants := by
  constructor
  · intro p
    rfl
  · induction variants with
    | nil => rfl
    | cons v vs ih =>
      have hcall : resolveCall true (geno' v) (freq v)
          = resolveCall true (geno v) (freq v) := by
        cases hg : geno v with
        | some g =>
          rw [hobs v g hg]
        | none =>
          obtain ⟨p, hp, hg'⟩ := hmiss v hg
          rw [hg', hp]
          rfl
      simp only [scoreVariants, hcall, ih]

/-- Witness for C1: one missing variant with reference frequency 1/4 is
imputed as 1/2; pre-supplying 1/2 as observed gives the same raw score. -/
theorem C1_imputation_consistency_witness :
    scoreVariants true (fun _ => some (1/2 : ℚ)) (fun _ => some (1/4))
        [⟨"chr1", 100, "hg38", "A", "G", 1⟩] =
      scoreVariants true (fun _ => none) (fun _ => some (1/4))
        [⟨"chr1", 100, "hg38", "A", "G", 1⟩] :=
  (C1_imputation_consistency (fun _ => none) (fun _ => some (1/2)) (fun _ => some (1/4))
    [⟨"chr1", 100, "hg38", "A", "G", 1⟩]
    (fun _ g h => by simp at h)
    (fun _ _ => ⟨1/4, rfl, by norm_num⟩)).2

/-- Claim C5: a VariantSpec with weight w and resolved expected allele
count e contributes exactly w * e to the raw score, and a zero-weight
variant never changes the raw score. -/
theorem C5_additive_contribution (v : VariantSpec) (e : ℚ)
    (rest : List (VariantSpec × ℚ)) (hlaTerm : ℚ) :
    rawScore ((v, e) :: rest) hlaTerm = v.weight * e + rawScore rest hlaTerm ∧
    (v.weight = 0 → rawScore ((v, e) :: rest) hlaTerm = rawScore rest hlaTerm) := by
  constructor
  · simp [rawScore, add_assoc]
  · intro h0
    simp [rawScore, h0]

/-- Witness for C5: a zero-weight variant added to a one-variant score
leaves the raw score unchanged. -/
theorem C5_additive_contribution_witness :
    rawScore [(⟨"chr2", 5, "hg38", "C", "T", 0⟩, (2 : ℚ)),
        (⟨"chr1", 100, "hg38", "A", "G", 1⟩, (1 : ℚ))] 0 =
      rawScore [(⟨"chr1", 100, "hg38", "A", "G", 1⟩, (1 : ℚ))] 0 :=
  (C5_additive_contribution ⟨"chr2", 5, "hg38", "C", "T", 0⟩ 2
    [(⟨"chr1", 100, "hg38", "A", "G", 1⟩, 1)] 0).2 rfl

/-- Modelled from the spec: one haplotype-pair hypothesis for a sample,
carrying the product of its two haplotypes' population frequencies and its
looked-up interaction weight (§4.4). -/
structure HLACandidate where
  freq : ℚ
  interactionWeight : ℚ
deriving DecidableEq, Repr

/-- Modelled from the spec: total population-frequency mass of the
surviving candidate set (§4.4). -/
def totalFreq (cs : List HLACandidate) : ℚ := (cs.map (·.freq)).sum

/-- Modelled from the spec: the probabilistic tie-break renormalizes each
candidate frequency over the surviving set (§4.4). -/
def tiebreakWeights (cs : List HLACandidate) : List ℚ :=
  cs.map (fun c => c.freq / totalFreq cs)

/-- Modelled from the spec: the interaction score is the probability-
weighted sum over surviving candidates of the candidate's interaction
weight (§4.4). -/
def interactionTerm (cs : List HLACandidate) : ℚ :=
  (cs.map (fun c => c.freq / totalFreq cs * c.interactionWeight)).sum

/-- Claim C2: for a sample with more candidate haplotype pairs than ploidy
allows, the tie-break renormalizes candidate frequencies over the
surviving set so the weights sum to 1 (hence within tolerance 1e-9), keeps
every candidate (the sample is never discarded), and the interaction term
is the weight-weighted sum of the candidates' interaction weights. -/
theorem C2_hla_tiebreak (cs : List HLACandidate) (hpos : 0 < totalFreq cs) :
    (tiebreakWeights cs).sum = 1 ∧
    |(tiebreakWeights cs).sum - 1| ≤ 1 / 1000000000 ∧
    (tiebreakWeights cs).length = cs.length ∧
    interactionTerm cs =
      (cs.map (fun c => c.freq / totalFreq cs * c.interactionWeight)).sum := by
  have hsum : (tiebreakWeights cs).sum = 1 := by
    have hne : totalFreq cs ≠ 0 := ne_of_gt hpos
    unfold tiebreakWeights
    simp only [div_eq_mul_inv]
    rw [List.sum_map_mul_right]
    exact mul_inv_cancel₀ hne
  refine ⟨hsum, ?_, ?_, rfl⟩
  · rw [hsum]
    norm_num
  · unfold tiebreakWeights
    exact List.length_map _ _

/-- Witness for C2: the synthetic 3-candidate ambiguity with frequencies
0.5/0.3/0.2 and interaction weights 1/2/3: weights renormalize to sum 1,
no candidate is discarded, and the interaction term is 1.7. -/
theorem C2_hla_tiebreak_witness :
    0 < totalFreq [⟨1/2, 1⟩, ⟨3/10, 2⟩, ⟨1/5, 3⟩] ∧
    ((tiebreakWeights [⟨1/2, 1⟩, ⟨3/10, 2⟩, ⟨1/5, 3⟩]).sum = 1 ∧
      (tiebreakWeights [⟨1/2, 1⟩, ⟨3/10, 2⟩, ⟨1/5, 3⟩]).length = 3) ∧
    interactionTerm [⟨1/2, 1⟩, ⟨3/10, 2⟩, ⟨1/5, 3⟩] = 17/10 := by
  have hpos : 0 < totalFreq [⟨1/2, 1⟩, ⟨3/10, 2⟩, ⟨1/5, 3⟩] := by
    norm_num [totalFreq]
  have h := C2_hla_tiebreak [⟨1/2, 1⟩, ⟨3/10, 2⟩, ⟨1/5, 3⟩] hpos
  refine ⟨hpos, ⟨h.1, h.2.2.1⟩, ?_⟩
  norm_num [interactionTerm, totalFreq]

/-- Modelled from the spec: normalization bounds computed once per
ScoreDefinition — (sum of weights at zero risk alleles, sum of weights at
maximum risk alleles, i.e. two copies each) (§4.5). -/
def normBounds (variants : List VariantSpec) : ℚ × ℚ :=
  ((variants.map (fun v => v.weight * 0)).sum,
   (variants.map (fun v => v.weight * 2)).sum)

/-- Modelled from the spec: min-max rescaling (raw - min) / (max - min),
failing with DegenerateBounds when max equals min (§4.5). -/
def normalize (bounds : ℚ × ℚ) (raw : ℚ) : Except ScoreError ℚ :=
  if bounds.2 = bounds.1 then .error .DegenerateBounds
  else .ok ((raw - bounds.1) / (bounds.2 - bounds.1))

/-- Claim C3: normalization rescales as (raw - min) / (max - min), fails
with DegenerateBounds exactly when max = min; for a one-variant flag with
weight 1 the bounds are (0, 2), a sample with 0 risk alleles normalizes to
0 and a sample with 2 risk alleles normalizes to 1. -/
theorem C3_normalization (b : ℚ × ℚ) (raw : ℚ) (v : VariantSpec)
    (hw : v.weight = 1) :
    (b.2 ≠ b.1 → normalize b raw = .ok ((raw - b.1) / (b.2 - b.1))) ∧
    (b.2 = b.1 → normalize b raw = .error .DegenerateBounds) ∧
    normBounds [v] = (0, 2) ∧
    normalize (normBounds [v]) (rawScore [(v, 0)] 0) = .ok 0 ∧
    normalize (normBounds [v]) (rawScore [(v, 2)] 0) = .ok 1 := by
  have hb : normBounds [v] = (0, 2) := by
    simp [normBounds, hw]
  refine ⟨?_, ?_, hb, ?_, ?_⟩
  · intro hne
    simp [normalize, hne]
  · intro heq
    simp [normalize, heq]
  · rw [hb]
    simp [normalize, rawScore]
  · rw [hb]
    simp [normalize, rawScore, hw]

/-- Witness for C3: a concrete one-variant flag with weight 1 — bounds
(0, 2), zero risk alleles normalize to 0, two risk alleles to 1, and a
degenerate bound pair fails. -/
theorem C3_normalization_witness :
    normBounds [⟨"chr1", 100, "hg38", "A", "G", 1⟩] = (0, 2) ∧
    normalize (normBounds [⟨"chr1", 100, "hg38", "A", "G", 1⟩])
        (rawScore [(⟨"chr1", 100, "hg38", "A", "G", 1⟩, 0)] 0) = .ok 0 ∧
    normalize (normBounds [⟨"chr1", 100, "hg38", "A", "G", 1⟩])
        (rawScore [(⟨"chr1", 100, "hg38", "A", "G", 1⟩, 2)] 0) = .ok 1 ∧
    normalize ((3 : ℚ), (3 : ℚ)) 5 = .error .DegenerateBounds := by
  have h := C3_normalization ((3 : ℚ), (3 : ℚ)) 5
    ⟨"chr1", 100, "hg38", "A", "G", 1⟩ rfl
  exact ⟨h.2.2.1, h.2.2.2.1, h.2.2.2.2, h.2.1 rfl⟩

/-- Modelled from the spec: the partial per-sample accumulator a worker
returns for one chunk — the additive sum over the chunk's variants of
weight × resolved expected allele count (§4.6). -/
def chunkAccum (e : VariantSpec → ℚ) (chunk : List VariantSpec) : ℚ :=
  (chunk.map (fun v => v.weight * e v)).sum

/-- Modelled from the spec: the merge step sums partial accumulators in
canonical chunk-index order, i.e. in the order of the chunk list, not in
worker arrival order (§4.6, §5). -/
def mergeInOrder (partials : List ℚ) : ℚ := partials.sum

/-- Modelled from the spec: the full chunked score — each chunk scored
independently and the partials merged in chunk-index order (§4.6). -/
def chunkedScore (e : VariantSpec → ℚ) (chunks : List (List VariantSpec)) : ℚ :=
  mergeInOrder (chunks.map (chunkAccum e))

/-- Claim C4: final scores are independent of worker scheduling and chunk
submission order — any partition of the variant set into chunks yields the
same score as the single-chunk run, and merging any arrival-order
permutation of the partials in canonical order gives the same result. -/
theorem C4_merge_order_invariance (e : VariantSpec → ℚ)
    (variants : List VariantSpec) (chunks : List (List VariantSpec))
    (hpart : chunks.flatten = variants) (arrival : List ℚ)
    (hperm : arrival.Perm (chunks.map (chunkAccum e))) :
    chunkedScore e chunks = chunkAccum e variants ∧
    mergeInOrder arrival = chunkedScore e chunks := by
  constructor
  · subst hpart
    clear hperm arrival
    induction chunks with
    | nil => rfl
    | cons c cs ih =>
      simp only [chunkedScore, mergeInOrder, List.map_cons, List.sum_cons,
        List.flatten_cons, chunkAccum, List.map_append, List.sum_append] at *
      rw [ih]
  · exact hperm.sum_eq

/-- Witness for C4: two variants split into two chunks, with the partials
arriving in reversed order, give the same score as the one-chunk run. -/
theorem C4_merge_order_invariance_witness :
    chunkedScore (fun _ => 1)
        [[⟨"chr1", 100, "hg38", "A", "G", 1⟩], [⟨"chr2", 5, "hg38", "C", "T", 3⟩]] =
      chunkAccum (fun _ => 1)
        [⟨"chr1", 100, "hg38", "A", "G", 1⟩, ⟨"chr2", 5, "hg38", "C", "T", 3⟩] ∧
    mergeInOrder
        [chunkAccum (fun _ => 1) [⟨"chr2", 5, "hg38", "C", "T", 3⟩],
         chunkAccum (fun _ => 1) [⟨"chr1", 100, "hg38", "A", "G", 1⟩]] =
      chunkedScore (fun _ => 1)
        [[⟨"chr1", 100, "hg38", "A", "G", 1⟩], [⟨"chr2", 5, "hg38", "C", "T", 3⟩]] :=
  C4_merge_order_invariance (fun _ => 1)
    [⟨"chr1", 100, "hg38", "A", "G", 1⟩, ⟨"chr2", 5, "hg38", "C", "T", 3⟩]
    [[⟨"chr1", 100, "hg38", "A", "G", 1⟩], [⟨"chr2", 5, "hg38", "C", "T", 3⟩]]
    rfl _ (List.Perm.swap _ _ _)

/-- Modelled from the spec: one requested (sample, flag) scoring unit,
carrying the flag's variant set (§4.6, §7). -/
structure ScoreRequest where
  sample : String
  flag : String
  variants : List VariantSpec
deriving DecidableEq, Repr

/-- Modelled from the spec: whether a request touches a contig whose
genotype source failed (§4.2, §7). -/
def hitsBadContig (bad : List String) (r : ScoreRequest) : Bool :=
  r.variants.any (fun v => bad.contains v.contig)

/-- Modelled from the spec: scoring one request against sources where the
contigs in `bad` raise a source error — the error is scoped to requests
whose variant set touches a bad contig (§4.2, §7). -/
def scoreRequest (bad : List String) (e : VariantSpec → ℚ)
    (r : ScoreRequest) : Except ScoreError ℚ :=
  if hitsBadContig bad r then .error .GenotypeSourceError
  else .ok (chunkAccum e r.variants)

/-- Modelled from the spec: the run over all requests — under failFast the
first source error cancels the run, otherwise every request is reported,
succeeding or failing independently (§5, §7). -/
def runRequests (failFast : Bool) (bad : List String) (e : VariantSpec → ℚ)
    (reqs : List ScoreRequest) : List (String × String × Except ScoreError ℚ) :=
  if failFast && reqs.any (hitsBadContig bad) then []
  else reqs.map (fun r => (r.sample, r.flag, scoreRequest bad e r))

/-- Claim C6: with failFast off, a genotype source error on one contig
does not prevent rows for requests whose variants lie entirely on
unaffected contigs, while a request whose variant set includes the
affected contig fails with GenotypeSourceError — the error is scoped to
the affected requests, not the whole run. -/
theorem C6_partial_failure_scoped (bad : List String) (e : VariantSpec → ℚ)
    (reqs : List ScoreRequest) (r : ScoreRequest) (hr : r ∈ reqs) :
    ((∀ v ∈ r.variants, v.contig ∉ bad) →
      (r.sample, r.flag, Except.ok (chunkAccum e r.variants)) ∈
        runRequests false bad e reqs) ∧
    ((∃ v ∈ r.variants, v.contig ∈ bad) →
      (r.sample, r.flag, Except.error ScoreError.GenotypeSourceError) ∈
        runRequests false bad e reqs) := by
  have hrun : runRequests false bad e reqs
      = reqs.map (fun q => (q.sample, q.flag, scoreRequest bad e q)) := by
    simp [runRequests]
  constructor
  · intro hok
    have hmiss : hitsBadContig bad r = false := by
      simp only [hitsBadContig, List.any_eq_false]
      intro v hv
      simpa using hok v hv
    rw [hrun]
    have : scoreRequest bad e r = .ok (chunkAccum e r.variants) := by
      simp [scoreRequest, hmiss]
    simpa [this] using List.mem_map_of_mem
      (fun q => (q.sample, q.flag, scoreRequest bad e q)) hr
  · intro hbad
    obtain ⟨v, hv, hvb⟩ := hbad
    have hhit : hitsBadContig bad r = true := by
      simp only [hitsBadContig, List.any_eq_true]
      exact ⟨v, hv, by simpa using hvb⟩
    rw [hrun]
    have : scoreRequest bad e r = .error .GenotypeSourceError := by
      simp [scoreRequest, hhit]
    simpa [this] using List.mem_map_of_mem
      (fun q => (q.sample, q.flag, scoreRequest bad e q)) hr

/-- Witness for C6: two requests, one entirely on chr1 and one touching
the failing contig chr2 — the chr1 request still gets its row and the chr2
request fails, in the same failFast-off run. -/
theorem C6_partial_failure_scoped_witness :
    ("s1", "flagA", Except.ok (chunkAccum (fun _ => 1)
        [⟨"chr1", 100, "hg38", "A", "G", 1⟩])) ∈
      runRequests false ["chr2"] (fun _ => 1)
        [⟨"s1", "flagA", [⟨"chr1", 100, "hg38", "A", "G", 1⟩]⟩,
         ⟨"s1", "flagB", [⟨"chr2", 5, "hg38", "C", "T", 3⟩]⟩] ∧
    ("s1", "flagB", Except.error ScoreError.GenotypeSourceError) ∈
      runRequests false ["chr2"] (fun _ => 1)
        [⟨"s1", "flagA", [⟨"chr1", 100, "hg38", "A", "G", 1⟩]⟩,
         ⟨"s1", "flagB", [⟨"chr2", 5, "hg38", "C", "T", 3⟩]⟩] := by
  constructor
  · exact (C6_partial_failure_scoped ["chr2"] (fun _ => 1)
      [⟨"s1", "flagA", [⟨"chr1", 100, "hg38", "A", "G", 1⟩]⟩,
       ⟨"s1", "flagB", [⟨"chr2", 5, "hg38", "C", "T", 3⟩]⟩]
      ⟨"s1", "flagA", [⟨"chr1", 100, "hg38", "A", "G", 1⟩]⟩
      (by simp)).1 (by intro v hv; simp at hv; simp [hv])
  · exact (C6_partial_failure_scoped ["chr2"] (fun _ => 1)
      [⟨"s1", "flagA", [⟨"chr1", 100, "hg38", "A", "G", 1⟩]⟩,
       ⟨"s1", "flagB", [⟨"chr2", 5, "hg38", "C", "T", 3⟩]⟩]
      ⟨"s1", "flagB", [⟨"chr2", 5, "hg38", "C", "T", 3⟩]⟩
      (by simp)).2 ⟨⟨"chr2", 5, "hg38", "C", "T", 3⟩, by simp, by simp⟩

/-- Modelled from the spec: a ScoreDefinition as resolved from the score
catalog — the flag's ordered variant set (§3, §4.1); the catalog store
(variants.db plus prs_meta.json per the README) is outside the engine. -/
structure ScoreDefinition where
  variants : List VariantSpec
deriving DecidableEq, Repr

/-- Modelled from the spec: catalog lookup — the ScoreDefinition of the
first registration of the flag, failing with UnknownScoreFlag when the
flag is not registered (§4.1). -/
def resolve (catalog : List (String × ScoreDefinition)) (flag : String) :
    Except ScoreError ScoreDefinition :=
  match catalog.find? (fun p => p.1 == flag) with
  | some p => .ok p.2
  | none => .error .UnknownScoreFlag

/-- Modelled from the spec: resolving every requested flag up front,
stopping at the first unresolvable flag (§4.1, §7). -/
def resolveAll (catalog : List (String × ScoreDefinition)) :
    List String → Except ScoreError (List ScoreDefinition)
  | [] => .ok []
  | f :: fs =>
    match resolve catalog f with
    | .error err => .error err
    | .ok d =>
      match resolveAll catalog fs with
      | .error err => .error err
      | .ok ds => .ok (d :: ds)

/-- Modelled from the spec: a full run resolves all requested flags before
any scoring begins; a catalog error aborts the run so no SampleScore rows
are produced for any flag (§7 propagation policy). -/
def runCatalog (catalog : List (String × ScoreDefinition)) (flags : List String)
    (score : ScoreDefinition → List (String × ℚ)) :
    Except ScoreError (List (String × ℚ)) :=
  match resolveAll catalog flags with
  | .error err => .error err
  | .ok ds => .ok (ds.flatMap score)

/-- Every error resolveAll can produce is UnknownScoreFlag. -/
theorem resolveAll_error_eq (catalog : List (String × ScoreDefinition))
    (flags : List String) (err : ScoreError)
    (h : resolveAll catalog flags = .error err) : err = .UnknownScoreFlag := by
  induction flags with
  | nil => simp [resolveAll] at h
  | cons f fs ih =>
    unfold resolveAll at h
    cases hf : resolve catalog f with
    | error e =>
      rw [hf] at h
      unfold resolve at hf
      cases hfind : catalog.find? (fun p => p.1 == f) with
      | some p => rw [hfind] at hf; cases hf
      | none =>
        rw [hfind] at hf
        cases hf
        cases h
        rfl
    | ok d =>
      rw [hf] at h
      cases hrest : resolveAll catalog fs with
      | error e => rw [hrest] at h; cases h; exact ih hrest
      | ok ds => rw [hrest] at h; cases h

/-- An unregistered flag among the requested flags makes resolveAll fail. -/
theorem resolveAll_fails_of_unregistered (catalog : List (String × ScoreDefinition))
    (flags : List String) (flag : String) (hmem : flag ∈ flags)
    (hunreg : ∀ p ∈ catalog, p.1 ≠ flag) :
    resolveAll catalog flags = .error .UnknownScoreFlag := by
  have hres : resolve catalog flag = .error .UnknownScoreFlag := by
    unfold resolve
    have : catalog.find? (fun p => p.1 == flag) = none := by
      rw [List.find?_eq_none]
      intro p hp
      simpa using hunreg p hp
    rw [this]
  induction flags with
  | nil => cases hmem
  | cons f fs ih =>
    rcases List.mem_cons.mp hmem with heq | htail
    · subst heq
      unfold resolveAll
      rw [hres]
    · unfold resolveAll
      cases hf : resolve catalog f with
      | error e =>
        rw [resolveAll_error_eq catalog (f :: fs) e (by unfold resolveAll; rw [hf])]
      | ok d =>
        rw [ih htail]

/-- Claim C7: resolve returns the registered ScoreDefinition and fails
with UnknownScoreFlag exactly when the flag is unregistered; such a
catalog error aborts the run before any scoring, so no rows are produced
for any flag of that run. -/
theorem C7_catalog_resolve (catalog : List (String × ScoreDefinition))
    (flag : String) (flags : List String)
    (score : ScoreDefinition → List (String × ℚ)) :
    (∀ p, catalog.find? (fun q => q.1 == flag) = some p →
      resolve catalog flag = .ok p.2) ∧
    (resolve catalog flag = .error .UnknownScoreFlag ↔ ∀ p ∈ catalog, p.1 ≠ flag) ∧
    (flag ∈ flags → (∀ p ∈ catalog, p.1 ≠ flag) →
      runCatalog catalog flags score = .error .UnknownScoreFlag) := by
  refine ⟨?_, ⟨?_, ?_⟩, ?_⟩
  · intro p hp
    unfold resolve
    rw [hp]
  · intro h p hp hflag
    unfold resolve at h
    cases hfind : catalog.find? (fun q => q.1 == flag) with
    | some q => rw [hfind] at h; cases h
    | none =>
      have := List.find?_eq_none.mp hfind p hp
      simp [hflag] at this
  · intro hall
    unfold resolve
    have : catalog.find? (fun q => q.1 == flag) = none := by
      rw [List.find?_eq_none]
      intro p hp
      simpa using hall p hp
    rw [this]
  · intro hmem hunreg
    unfold runCatalog
    rw [resolveAll_fails_of_unregistered catalog flags flag hmem hunreg]

/-- Witness for C7: a one-entry catalog — the registered flag resolves to
its definition, an unregistered flag fails, and requesting it makes the
whole run abort with UnknownScoreFlag before any row is produced. -/
theorem C7_catalog_resolve_witness :
    resolve [("t1dgrs2-sharp24", ⟨[]⟩)] "t1dgrs2-sharp24" = .ok ⟨[]⟩ ∧
    resolve [("t1dgrs2-sharp24", ⟨[]⟩)] "nope" = .error .UnknownScoreFlag ∧
    runCatalog [("t1dgrs2-sharp24", ⟨[]⟩)] ["t1dgrs2-sharp24", "nope"]
        (fun _ => [("s1", 0)]) = .error .UnknownScoreFlag := by
  have h := C7_catalog_resolve [("t1dgrs2-sharp24", ⟨[]⟩)] "nope"
    ["t1dgrs2-sharp24", "nope"] (fun _ => [("s1", 0)])
  refine ⟨?_, ?_, ?_⟩
  · exact (C7_catalog_resolve [("t1dgrs2-sharp24", ⟨[]⟩)] "t1dgrs2-sharp24"
      [] (fun _ => [])).1 ("t1dgrs2-sharp24", ⟨[]⟩) rfl
  · exact h.2.1.mpr (by intro p hp; simp at hp; simp [hp])
  · exact h.2.2 (by simp) (by intro p hp; simp at hp; simp [hp])

/-- Chunking of the variant list as in the source notebooks:
l[i:i+size] for i in range(0, len(l), size). A step of 0 raises in
python's range and is modelled as producing no chunks. -/
def chunksOf {α : Type} (size : Nat) (l : List α) : List (List α) :=
  match l with
  | [] => []
  | x :: xs =>
    if hs : size = 0 then []
    else (x :: xs).take size :: chunksOf size ((x :: xs).drop size)
termination_by l.length
decreasing_by
  simp only [List.length_drop]
  exact Nat.sub_lt (by simp) (Nat.pos_of_ne_zero hs)

/-- From the source (README, --batch-size): the number of variants per
batch defaults to 1. -/
def defaultBatchSize : Nat := 1

/-- Claim C8 counterexample: with the documented default batch size of 1
variant per batch, a small variant set of two variants is split into two
units of work, not covered in a single chunk. -/
theorem C8_default_chunk_counterexample :
    defaultBatchSize = 1 ∧
    (chunksOf defaultBatchSize
      [(⟨"chr1", 100, "hg38", "A", "G", 1⟩ : VariantSpec),
       ⟨"chr2", 5, "hg38", "C", "T", 3⟩]).length = 2 ∧
    (chunksOf defaultBatchSize
      [(⟨"chr1", 100, "hg38", "A", "G", 1⟩ : VariantSpec),
       ⟨"chr2", 5, "hg38", "C", "T", 3⟩]).length ≠ 1 := by
  refine ⟨rfl, ?_, ?_⟩ <;>
    norm_num [chunksOf.eq_def, defaultBatchSize]

/-- Claim C8 (amended): the Batch Scheduler's default chunk size is 1
variant per batch, so a variant set of n variants is split into exactly n
units of work — the default does not cover a small variant set all at
once. -/
theorem C8_default_chunksize (l : List VariantSpec) :
    (chunksOf defaultBatchSize l).length = l.length := by
  induction l with
  | nil => rw [chunksOf.eq_def]; rfl
  | cons x xs ih =>
    rw [chunksOf.eq_def]
    simp only [defaultBatchSize] at *
    simpa using ih

/-- Modelled from the spec and README: one record of the reference
VCF/BCF legend — the AF INFO field when the record carries one, plus
whatever genotype data the record may have ("genotypes not required"). -/
structure RefRecord where
  info_af : Option ℚ
  genotypes : List (Option ℚ)
deriving DecidableEq, Repr

/-- Modelled from the spec and README: the Imputation Engine reads the
reference allele frequency from the record's AF field only; genotype data
in the record is never consulted to derive a frequency. -/
def refPanelFrequency (record : Option RefRecord) : Option ℚ :=
  match record with
  | none => none
  | some r => r.info_af

/-- Claim C9: the reference frequency comes exclusively from the AF field
— it is invariant under any change of the record's genotype data, a
record lacking AF yields no usable frequency, and imputing a missing call
against such a record fails with NoReferenceFrequency. -/
theorem C9_af_field_only (af : Option ℚ) (g1 g2 : List (Option ℚ)) :
    refPanelFrequency (some ⟨af, g1⟩) = refPanelFrequency (some ⟨af, g2⟩) ∧
    refPanelFrequency (some ⟨none, g1⟩) = none ∧
    resolveCall true none (refPanelFrequency (some ⟨none, g1⟩)) =
      .error .NoReferenceFrequency :=
  ⟨rfl, rfl, rfl⟩

/-- From the source (README CLI option table, gen_dm callers in the
notebooks): the run options of the public interface. -/
structure RunOptions where
  col : String
  build : String
  impute : Nat
  norm : Nat
  parallel : Nat
deriving DecidableEq, Repr

/-- From the source (README): defaults — col GT, build hg38, impute 1,
norm 1, parallel 1 — applied for every option the caller leaves
unspecified. -/
def applyDefaults (col build : Option String)
    (impute norm parallel : Option Nat) : RunOptions :=
  { col := col.getD "GT"
    build := build.getD "hg38"
    impute := impute.getD 1
    norm := norm.getD 1
    parallel := parallel.getD 1 }

/-- Claim C10: a caller who supplies only the genotype source and flags —
leaving every option unspecified — gets imputation, normalization and
parallel execution enabled (value 1), hard-call column GT and genome
build hg38. -/
theorem C10_interface_defaults :
    applyDefaults none none none none none =
      { col := "GT", build := "hg38", impute := 1, norm := 1, parallel := 1 } :=
  rfl

end PRSedm
